import Mathlib

/-!
Verification of the Gene_Target-Explorer pipeline (src/app.py).

Shallow embedding: the remote ChEMBL client is modelled as a deterministic
environment of response functions (`RemoteEnv`); a call that may raise is an
`Except Unit _`.  Numeric potency values (Python floats parsed from the
remote strings) are modelled as rationals; an activity's `standard_value`
is `Option ℚ` (`none` = missing / falsy / unparseable).  Streamlit
side-effects (`st.error`, `st.warning`) are modelled as booleans, and the
session state dictionary as an explicit record whose optional `api_errors`
key is an `Option Nat`.
-/

namespace App

/-- Constants from src/app.py lines 10-13. -/
def MAX_DRUGS : Nat := 75

def TARGET_LIMIT : Nat := 3

def WORKERS : Nat := 2

def CACHE_SIZE : Nat := 2

/-- A target record as returned by the ChEMBL target endpoint:
`target_chembl_id` plus optional `pref_name` (absent key = `none`). -/
structure Target where
  target_chembl_id : String
  pref_name : Option String
deriving Repr, DecidableEq

/-- A mechanism record: `molecule_chembl_id` and `mechanism_of_action`. -/
structure Mechanism where
  molecule_chembl_id : String
  mechanism_of_action : String
deriving Repr, DecidableEq

/-- A molecule record: optional `pref_name`, optional `max_phase`
(numeric when present), and its id. -/
structure Molecule where
  pref_name : Option String
  max_phase : Option ℚ
  molecule_chembl_id : String
deriving Repr, DecidableEq

/-- An activity record: `standard_value` is the parsed numeric value
(`none` when missing, falsy or unparseable), `standard_units` a string. -/
structure Activity where
  standard_value : Option ℚ
  standard_units : String
deriving Repr, DecidableEq

/-- The value stored in a result row's `Phase` column: the molecule's
`max_phase` when its key is present, otherwise the literal "Unknown". -/
inductive PhaseVal where
  | phase (p : ℚ)
  | unknownPhase
deriving Repr, DecidableEq

/-- A result row (`drugs.append({...})`, src/app.py lines 74-79). -/
structure ResultRow where
  drug : String
  ic50 : ℚ
  phase : PhaseVal
  targetName : String
deriving Repr, DecidableEq

/-- The remote ChEMBL client: deterministic response functions, each of
which may fail (`Except.error`).  Query arguments mirror the filters used
by src/app.py; list-valued endpoints return the full server-side result
list, the client slices it. -/
structure RemoteEnv where
  /-- `target.filter(target_synonym__iexact=...)`, keyed by the uppercased gene. -/
  targetsBySynonym : String → Except Unit (List Target)
  /-- `target.filter(pref_name__iexact=...)`, keyed by the uppercased gene. -/
  targetsByName : String → Except Unit (List Target)
  /-- `mechanism.filter(target_chembl_id=...)`, keyed by target id. -/
  mechanisms : String → Except Unit (List Mechanism)
  /-- `molecule.get(id, fields=[...])`, keyed by molecule id. -/
  molecule : String → Except Unit Molecule
  /-- `activity.filter(molecule_chembl_id, target_chembl_id, standard_type="IC50",
  standard_units="nM")`, keyed by (molecule id, target id). -/
  activities : String → String → Except Unit (List Activity)

/-- `get_targets` (src/app.py lines 27-44), without the `lru_cache` wrapper
(the cache is modelled separately as state, see `cacheManagement`): try the
synonym search on the uppercased gene sliced to `TARGET_LIMIT*2`; on empty
fall back to the pref-name search; return `none` when both are empty.
Second component: the number of `api_errors` increments (1 exactly when a
remote call raised). -/
def get_targets (env : RemoteEnv) (gene : String) : Option (List Target) × Nat :=
  match env.targetsBySynonym gene.toUpper with
  | .error _ => (none, 1)
  | .ok ts =>
    let ts := ts.take (TARGET_LIMIT * 2)
    if ts.isEmpty then
      match env.targetsByName gene.toUpper with
      | .error _ => (none, 1)
      | .ok ts2 =>
        let ts2 := ts2.take (TARGET_LIMIT * 2)
        if ts2.isEmpty then (none, 0) else (some ts2, 0)
    else (some ts, 0)

/-- The body of the per-mechanism `try` block (src/app.py lines 56-79):
fetch the molecule, fetch activities sliced to `[:1]`, and emit a row iff
an activity exists with unit "nM", a (truthy) value, and value ≤ threshold.
`none` covers both the skip cases and the per-mechanism exception path
(`except: continue`). -/
def processMech (env : RemoteEnv) (target : Target) (threshold : ℚ)
    (mech : Mechanism) : Option ResultRow :=
  match env.molecule mech.molecule_chembl_id with
  | .error _ => none
  | .ok drug =>
    match env.activities mech.molecule_chembl_id target.target_chembl_id with
    | .error _ => none
    | .ok acts =>
      match acts.take 1 with
      | [] => none
      | a :: _ =>
        if a.standard_units = "nM" then
          match a.standard_value with
          | none => none
          | some ic50 =>
            if ic50 ≤ threshold then
              some { drug := drug.pref_name.getD
                       ("Unknown_" ++ mech.molecule_chembl_id.take 4)
                     ic50 := ic50
                     phase := match drug.max_phase with
                       | some p => .phase p
                       | none => .unknownPhase
                     targetName := target.pref_name.getD target.target_chembl_id }
            else none
        else none

/-- The mechanism list the aggregator fetches for a target: the remote
response sliced to `[:MAX_DRUGS*2]` (src/app.py lines 51-53); empty when
the remote call raised. -/
def fetchedMechList (env : RemoteEnv) (target : Target) : List Mechanism :=
  match env.mechanisms target.target_chembl_id with
  | .error _ => []
  | .ok ms => ms.take (MAX_DRUGS * 2)

/-- Outcome of one `fetch_drugs` call: the returned rows, whether the
target-level `st.error` was emitted (outer `except`, src/app.py lines
85-87), and by how much the session `api_errors` counter was incremented
(the outer `except` only calls `st.error`, so this is always 0). -/
structure FetchOutcome where
  rows : List ResultRow
  targetErrorReported : Bool
  apiErrorIncrement : Nat
deriving Repr, DecidableEq

/-- `fetch_drugs` (src/app.py lines 47-88) with its reporting effects:
on a mechanism-list failure return the rows accumulated so far (the fetch
is the first statement, so none) and report the target-level error;
otherwise process the first `MAX_DRUGS // TARGET_LIMIT` fetched mechanisms
in order. -/
def fetch_drugs_run (env : RemoteEnv) (target : Target) (threshold : ℚ) :
    FetchOutcome :=
  match env.mechanisms target.target_chembl_id with
  | .error _ => ⟨[], true, 0⟩
  | .ok ms =>
    ⟨((ms.take (MAX_DRUGS * 2)).take (MAX_DRUGS / TARGET_LIMIT)).filterMap
        (processMech env target threshold),
      false, 0⟩

/-- The row list `fetch_drugs` returns. -/
def fetch_drugs (env : RemoteEnv) (target : Target) (threshold : ℚ) :
    List ResultRow :=
  (fetch_drugs_run env target threshold).rows

/-- The merge loop over `as_completed` futures (src/app.py lines 119-123):
extend the running list by each completed aggregation's rows, and break
once the running count reaches `MAX_DRUGS`. -/
def mergeLoop : List (List ResultRow) → List ResultRow → List ResultRow
  | [], acc => acc
  | r :: rs, acc =>
    if MAX_DRUGS ≤ (acc ++ r).length then acc ++ r else mergeLoop rs (acc ++ r)

/-- The merged result list for one run: one `fetch_drugs` output per
dispatched target, consumed in completion order (`order`, a permutation of
the dispatched targets supplied by the scheduler). -/
def runMerge (env : RemoteEnv) (threshold : ℚ) (order : List Target) :
    List ResultRow :=
  mergeLoop (order.map (fun t => fetch_drugs env t threshold)) []

/-- The ordering on result rows used by `sort_values('IC50')`. -/
def rowLE (a b : ResultRow) : Prop := a.ic50 ≤ b.ic50

instance : DecidableRel rowLE := fun a b => inferInstanceAs (Decidable (a.ic50 ≤ b.ic50))

instance : IsTotal ResultRow rowLE := ⟨fun a b => le_total a.ic50 b.ic50⟩

instance : IsTrans ResultRow rowLE := ⟨fun _ _ _ h h' => le_trans h h'⟩

/-- `pd.DataFrame(results).sort_values('IC50')` (src/app.py line 133):
sort the merged rows ascending by ic50 (ties in some unspecified order;
modelled with a concrete comparison sort on the ic50 key). -/
def sortRows (rows : List ResultRow) : List ResultRow :=
  rows.insertionSort rowLE

/-- `st.session_state.results`: the stored dataset plus metadata.  The
`api_errors` key may be absent from the dictionary (the success-path
replace omits it and reads use `.get('api_errors', 0)`), hence `Option`. -/
structure SessionResults where
  drugs : List ResultRow
  gene : String
  threshold : ℚ
  last_updated : ℚ
  api_errors : Option Nat
deriving Repr, DecidableEq

/-- The initial session state (src/app.py lines 16-23). -/
def initResults : SessionResults :=
  { drugs := [], gene := "", threshold := 0, last_updated := 0,
    api_errors := some 0 }

/-- Terminal outcome of one Analyze click. -/
inductive RunOutcome where
  | noTargets
  | noResults
  | completed
deriving Repr, DecidableEq

/-- The Analyze handler (src/app.py lines 103-139): reset `api_errors` to
0; resolve targets (a failure or empty result stops with the stored data
untouched); dispatch `fetch_drugs` over the first `TARGET_LIMIT` targets
and merge in completion order (`π` reorders the dispatched list; the
scheduler guarantees it is a permutation); stop if no rows; otherwise
replace the stored state with the sorted rows, gene, threshold and the
current time — the replacing dictionary has no `api_errors` key. -/
def analyze (env : RemoteEnv) (π : List Target → List Target) (gene : String)
    (threshold : ℚ) (now : ℚ) (st : SessionResults) :
    SessionResults × RunOutcome :=
  let st1 := { st with api_errors := some 0 }
  match get_targets env gene with
  | (none, e) => ({ st1 with api_errors := some e }, .noTargets)
  | (some targets, _) =>
    let merged := runMerge env threshold (π (targets.take TARGET_LIMIT))
    if merged.isEmpty then (st1, .noResults)
    else ({ drugs := sortRows merged, gene := gene, threshold := threshold,
            last_updated := now, api_errors := none }, .completed)

/-- Whole-app state: the session results plus the `lru_cache` attached to
`get_targets`, modelled as the list of cached (gene, result) entries. -/
structure AppState where
  results : SessionResults
  targetCache : List (String × Option (List Target))
deriving Repr, DecidableEq

/-- The cache-management block at the end of every script run
(src/app.py lines 178-179): when the stored `last_updated` is older than
300 time units relative to now, clear `get_targets`'s cache. -/
def cacheManagement (now : ℚ) (s : AppState) : AppState :=
  if s.results.last_updated < now - 300 then { s with targetCache := [] }
  else s

/-! Concrete fixtures (used to evaluate the definitions on closed inputs). -/

/-- A concrete target. -/
def tgt0 : Target :=
  { target_chembl_id := "CHEMBL230", pref_name := some "Cyclooxygenase-2" }

/-- A concrete mechanism whose molecule id is the spec's example. -/
def mech0 : Mechanism :=
  { molecule_chembl_id := "CHEMBL1234", mechanism_of_action := "inhibitor" }

/-- A concrete molecule with no preferred name. -/
def mol0 : Molecule :=
  { pref_name := none, max_phase := some 4, molecule_chembl_id := "CHEMBL1234" }

/-- A concrete activity: 5 nM. -/
def act0 : Activity := { standard_value := some 5, standard_units := "nM" }

/-- The row `processMech` emits from `mech0`/`mol0`/`act0` under `tgt0`. -/
def row0 : ResultRow :=
  { drug := "Unknown_CHEM", ic50 := 5, phase := .phase 4,
    targetName := "Cyclooxygenase-2" }

/-- A healthy remote: one target, one mechanism, one qualifying activity. -/
def env1 : RemoteEnv :=
  { targetsBySynonym := fun _ => .ok [tgt0]
    targetsByName := fun _ => .ok []
    mechanisms := fun _ => .ok [mech0]
    molecule := fun _ => .ok mol0
    activities := fun _ _ => .ok [act0] }

/-- Like `env1` but the mechanism endpoint returns 60 mechanisms. -/
def envBig : RemoteEnv :=
  { env1 with mechanisms := fun _ => .ok (List.replicate 60 mech0) }

/-- Like `env1` but the mechanism endpoint raises. -/
def envFail : RemoteEnv :=
  { env1 with mechanisms := fun _ => .error () }

/-- Like `env1` but both target searches come back empty. -/
def envEmpty : RemoteEnv :=
  { env1 with targetsBySynonym := fun _ => .ok []
              targetsByName := fun _ => .ok [] }

/-- The session state `analyze env1 id "PTGS2" 100 7 initResults` stores. -/
def stored1 : SessionResults :=
  { drugs := [row0], gene := "PTGS2", threshold := 100,
    last_updated := 7, api_errors := none }

/-- An app state with a populated target-resolution cache. -/
def appState9 : AppState :=
  { results := stored1, targetCache := [("PTGS2", some [tgt0])] }

/-! Helper lemmas. -/

theorem processMech_ic50_le {env : RemoteEnv} {t : Target} {th : ℚ}
    {m : Mechanism} {row : ResultRow}
    (h : processMech env t th m = some row) : row.ic50 ≤ th := by
  unfold processMech at h
  repeat' split at h
  all_goals simp_all
  all_goals subst h
  all_goals simp_all

theorem processMech_mono {env : RemoteEnv} {t : Target} {m : Mechanism}
    {row : ResultRow} {t1 t2 : ℚ} (hle : t1 ≤ t2)
    (h : processMech env t t1 m = some row) :
    processMech env t t2 m = some row := by
  unfold processMech at h ⊢
  repeat' split at h
  all_goals simp_all
  all_goals linarith

theorem fetch_drugs_length_le (env : RemoteEnv) (t : Target) (th : ℚ) :
    (fetch_drugs env t th).length ≤ MAX_DRUGS / TARGET_LIMIT := by
  unfold fetch_drugs fetch_drugs_run
  split
  · simp
  · exact le_trans (List.length_filterMap_le _ _) (List.length_take_le _ _)

theorem mem_fetch_drugs_ic50_le {env : RemoteEnv} {t : Target} {th : ℚ}
    {row : ResultRow} (h : row ∈ fetch_drugs env t th) : row.ic50 ≤ th := by
  unfold fetch_drugs fetch_drugs_run at h
  split at h
  · simp at h
  · rcases List.mem_filterMap.1 h with ⟨m, _, hm⟩
    exact processMech_ic50_le hm

theorem fetch_drugs_mono {env : RemoteEnv} {t : Target} {t1 t2 : ℚ}
    (hle : t1 ≤ t2) {row : ResultRow} (h : row ∈ fetch_drugs env t t1) :
    row ∈ fetch_drugs env t t2 := by
  unfold fetch_drugs fetch_drugs_run at h ⊢
  split at h
  · simp at h
  · rcases List.mem_filterMap.1 h with ⟨m, hm, hpm⟩
    exact List.mem_filterMap.2 ⟨m, hm, processMech_mono hle hpm⟩

theorem mem_mergeLoop {x : ResultRow} :
    ∀ {rs : List (List ResultRow)} {acc : List ResultRow},
      x ∈ mergeLoop rs acc → x ∈ acc ∨ ∃ l ∈ rs, x ∈ l := by
  intro rs
  induction rs with
  | nil => intro acc h; exact Or.inl h
  | cons r rs ih =>
    intro acc h
    unfold mergeLoop at h
    split at h
    · rcases List.mem_append.1 h with h' | h'
      · exact Or.inl h'
      · exact Or.inr ⟨r, List.mem_cons_self _ _, h'⟩
    · rcases ih h with h' | ⟨l, hl, hx⟩
      · rcases List.mem_append.1 h' with h'' | h''
        · exact Or.inl h''
        · exact Or.inr ⟨r, List.mem_cons_self _ _, h''⟩
      · exact Or.inr ⟨l, List.mem_cons_of_mem _ hl, hx⟩

theorem mergeLoop_length_le :
    ∀ (rs : List (List ResultRow)) (acc : List ResultRow),
      (mergeLoop rs acc).length ≤ acc.length + (rs.map List.length).sum := by
  intro rs
  induction rs with
  | nil => intro acc; simp [mergeLoop]
  | cons r rs ih =>
    intro acc
    unfold mergeLoop
    split
    · simp
    · calc (mergeLoop rs (acc ++ r)).length
          ≤ (acc ++ r).length + (rs.map List.length).sum := ih _
        _ ≤ acc.length + ((r :: rs).map List.length).sum := by simp; omega

/-- With at most `TARGET_LIMIT` aggregations of at most
`MAX_DRUGS / TARGET_LIMIT` rows each, the cap can only be reached at the
last completion, so the merge loop drops nothing: it returns the
concatenation of all completed results. -/
theorem mergeLoop_eq_flatten {rs : List (List ResultRow)}
    (hlen : rs.length ≤ TARGET_LIMIT)
    (hb : ∀ l ∈ rs, l.length ≤ MAX_DRUGS / TARGET_LIMIT) :
    mergeLoop rs [] = rs.flatten := by
  rcases rs with _ | ⟨a, _ | ⟨b, _ | ⟨c, _ | ⟨d, rs⟩⟩⟩⟩
  · rfl
  · simp [mergeLoop]
  · have ha := hb a (by simp)
    simp only [MAX_DRUGS, TARGET_LIMIT] at ha
    simp only [mergeLoop, List.nil_append, List.flatten]
    rw [if_neg (by simp [MAX_DRUGS]; omega)]
    simp [mergeLoop]
  · have ha := hb a (by simp)
    have hbb := hb b (by simp)
    simp only [MAX_DRUGS, TARGET_LIMIT] at ha hbb
    simp only [mergeLoop, List.nil_append, List.flatten]
    rw [if_neg (by simp [MAX_DRUGS]; omega),
      if_neg (by simp [MAX_DRUGS]; omega)]
    simp [mergeLoop]
  · simp only [TARGET_LIMIT, List.length_cons] at hlen
    omega

theorem runMerge_eq_flatten (env : RemoteEnv) (th : ℚ) {order : List Target}
    (hlen : order.length ≤ TARGET_LIMIT) :
    runMerge env th order =
      (order.map (fun t => fetch_drugs env t th)).flatten := by
  apply mergeLoop_eq_flatten
  · simpa using hlen
  · intro l hl
    rcases List.mem_map.1 hl with ⟨t, _, rfl⟩
    exact fetch_drugs_length_le env t th

/-- The merge over at most `TARGET_LIMIT` aggregations yields at most
`MAX_DRUGS` rows. -/
theorem runMerge_length_le (env : RemoteEnv) (th : ℚ) {order : List Target}
    (hlen : order.length ≤ TARGET_LIMIT) :
    (runMerge env th order).length ≤ MAX_DRUGS := by
  unfold runMerge
  refine le_trans (mergeLoop_length_le _ _) ?_
  have hb : ∀ x ∈ (order.map (fun t => fetch_drugs env t th)).map List.length,
      x ≤ MAX_DRUGS / TARGET_LIMIT := by
    intro x hx
    rcases List.mem_map.1 hx with ⟨l, hl, rfl⟩
    rcases List.mem_map.1 hl with ⟨t, _, rfl⟩
    exact fetch_drugs_length_le env t th
  have hsum := List.sum_le_card_nsmul _ _ hb
  simp only [smul_eq_mul, List.length_map] at hsum
  refine le_trans (le_of_eq (Nat.zero_add _)) (le_trans hsum ?_)
  refine le_trans (Nat.mul_le_mul_right _ hlen) ?_
  simp [MAX_DRUGS, TARGET_LIMIT]

/-- Rows of the merged list all come from some dispatched aggregation. -/
theorem mem_runMerge {env : RemoteEnv} {th : ℚ} {order : List Target}
    {row : ResultRow} (h : row ∈ runMerge env th order) :
    ∃ t ∈ order, row ∈ fetch_drugs env t th := by
  unfold runMerge at h
  rcases mem_mergeLoop h with h' | ⟨l, hl, hx⟩
  · simp at h'
  · rcases List.mem_map.1 hl with ⟨t, ht, rfl⟩
    exact ⟨t, ht, hx⟩

/-- The rows `fetch_drugs` returns are exactly the successful
`processMech` outputs over the first `MAX_DRUGS / TARGET_LIMIT` fetched
mechanisms. -/
theorem fetch_drugs_eq (env : RemoteEnv) (t : Target) (th : ℚ) :
    fetch_drugs env t th =
      ((fetchedMechList env t).take (MAX_DRUGS / TARGET_LIMIT)).filterMap
        (processMech env t th) := by
  unfold fetch_drugs fetch_drugs_run fetchedMechList
  split <;> rfl

/-! Claim theorems. -/

/-- C1: every row of the stored `RunResult` of a completed run has
`ic50 ≤` the threshold stored for that run (which is the threshold the
run was started with). -/
theorem rows_ic50_le_threshold {env : RemoteEnv}
    {π : List Target → List Target} {gene : String} {th now : ℚ}
    {st st' : SessionResults}
    (h : analyze env π gene th now st = (st', .completed)) :
    ∀ row ∈ st'.drugs, row.ic50 ≤ st'.threshold := by
  simp only [analyze] at h
  split at h
  · exact absurd (congrArg Prod.snd h) (by simp)
  · split at h
    · exact absurd (congrArg Prod.snd h) (by simp)
    · injection h with h1 h2
      subst h1
      intro row hrow
      simp only [sortRows, List.mem_insertionSort] at hrow
      rcases mem_runMerge hrow with ⟨t, _, hx⟩
      exact mem_fetch_drugs_ic50_le hx

/-- C1 witness. -/
theorem rows_ic50_le_threshold_witness :
    analyze env1 id "PTGS2" 100 7 initResults = (stored1, .completed) ∧
    ∀ row ∈ stored1.drugs, row.ic50 ≤ stored1.threshold :=
  ⟨by decide,
    @rows_ic50_le_threshold env1 id "PTGS2" 100 7 initResults stored1
      (by decide)⟩

/-- C2: however many targets resolve and however many mechanisms each
has, a completed run stores at most `MAX_DRUGS` rows: each aggregation
returns at most `MAX_DRUGS / TARGET_LIMIT` rows
(`fetch_drugs_length_le`), at most `TARGET_LIMIT` aggregations are
dispatched, and the merge loop breaks at `MAX_DRUGS`. -/
theorem row_count_le_max_drugs {env : RemoteEnv}
    {π : List Target → List Target} {gene : String} {th now : ℚ}
    {st st' : SessionResults} (hπ : ∀ l : List Target, (π l).Perm l)
    (h : analyze env π gene th now st = (st', .completed)) :
    st'.drugs.length ≤ MAX_DRUGS := by
  simp only [analyze] at h
  split at h
  · exact absurd (congrArg Prod.snd h) (by simp)
  · split at h
    · exact absurd (congrArg Prod.snd h) (by simp)
    · injection h with h1 h2
      subst h1
      simp only [sortRows, List.length_insertionSort]
      refine runMerge_length_le env th ?_
      rw [(hπ _).length_eq]
      exact List.length_take_le _ _

/-- C2 witness. -/
theorem row_count_le_max_drugs_witness :
    analyze env1 id "PTGS2" 100 7 initResults = (stored1, .completed) ∧
    stored1.drugs.length ≤ MAX_DRUGS :=
  ⟨by decide,
    @row_count_le_max_drugs env1 id "PTGS2" 100 7 initResults stored1
      (fun l => List.Perm.refl l) (by decide)⟩

/-- C3: a completed run's stored rows are sorted ascending by ic50, and
re-sorting them by ic50 returns the same sequence (idempotence; ties keep
their merge-insertion order under the stable model sort). -/
theorem rows_sorted_resort_idempotent {env : RemoteEnv}
    {π : List Target → List Target} {gene : String} {th now : ℚ}
    {st st' : SessionResults}
    (h : analyze env π gene th now st = (st', .completed)) :
    List.Sorted rowLE st'.drugs ∧ sortRows st'.drugs = st'.drugs := by
  simp only [analyze] at h
  split at h
  · exact absurd (congrArg Prod.snd h) (by simp)
  · split at h
    · exact absurd (congrArg Prod.snd h) (by simp)
    · injection h with h1 h2
      subst h1
      exact ⟨List.sorted_insertionSort rowLE _,
        (List.sorted_insertionSort rowLE _).insertionSort_eq⟩

/-- C3 witness. -/
theorem rows_sorted_resort_idempotent_witness :
    analyze env1 id "PTGS2" 100 7 initResults = (stored1, .completed) ∧
    List.Sorted rowLE stored1.drugs ∧ sortRows stored1.drugs = stored1.drugs :=
  ⟨by decide,
    @rows_sorted_resort_idempotent env1 id "PTGS2" 100 7 initResults stored1
      (by decide)⟩

/-- C4: with the same resolved targets, the same completion order and the
same remote responses, every result row produced at threshold `t1 < t2`
is also produced at threshold `t2` (set inclusion). -/
theorem threshold_monotone_subset {env : RemoteEnv} {order : List Target}
    {t1 t2 : ℚ} (hlt : t1 < t2) (hlen : order.length ≤ TARGET_LIMIT) :
    ∀ row ∈ runMerge env t1 order, row ∈ runMerge env t2 order := by
  intro row hrow
  rcases mem_runMerge hrow with ⟨t, ht, hx⟩
  rw [runMerge_eq_flatten env t2 hlen]
  exact List.mem_flatten.2 ⟨fetch_drugs env t t2,
    List.mem_map.2 ⟨t, ht, rfl⟩, fetch_drugs_mono hlt.le hx⟩

/-- C4 witness. -/
theorem threshold_monotone_subset_witness :
    (10 : ℚ) < 100 ∧ [tgt0].length ≤ TARGET_LIMIT ∧
    ∀ row ∈ runMerge env1 10 [tgt0], row ∈ runMerge env1 100 [tgt0] :=
  ⟨by norm_num, by decide,
    @threshold_monotone_subset env1 [tgt0] 10 100 (by norm_num) (by decide)⟩

/-- C5 counterexample: the claim caps the mechanism-list fetch at
2 × (MAX_DRUGS / TARGET_LIMIT) = 50 mechanisms, but the code slices the
remote response at `[:MAX_DRUGS*2]` = 150: a remote source returning 60
mechanisms yields 60 fetched mechanisms, exceeding 50. -/
theorem mech_fetch_cap_claim_cex :
    (fetchedMechList envBig tgt0).length = 60 ∧
    ¬ ((fetchedMechList envBig tgt0).length ≤
        2 * (MAX_DRUGS / TARGET_LIMIT)) := by
  decide

/-- C5 amended: the mechanism-list fetch requests at most `MAX_DRUGS * 2`
(=150) mechanisms — not 2 × the per-aggregator budget — and the
aggregator then processes only the first `MAX_DRUGS / TARGET_LIMIT` (=25)
of them in returned order: every emitted row is produced by one of those
first 25 fetched mechanisms. -/
theorem mech_fetch_cap_amended (env : RemoteEnv) (t : Target) :
    (fetchedMechList env t).length ≤ MAX_DRUGS * 2 ∧
    ∀ th row, row ∈ fetch_drugs env t th →
      ∃ mech ∈ (fetchedMechList env t).take (MAX_DRUGS / TARGET_LIMIT),
        processMech env t th mech = some row := by
  constructor
  · unfold fetchedMechList
    split
    · simp
    · exact List.length_take_le _ _
  · intro th row hrow
    rw [fetch_drugs_eq] at hrow
    exact List.mem_filterMap.1 hrow

/-- C5 witness. -/
theorem mech_fetch_cap_amended_witness :
    (fetchedMechList env1 tgt0).length ≤ MAX_DRUGS * 2 ∧
    row0 ∈ fetch_drugs env1 tgt0 100 ∧
    ∃ mech ∈ (fetchedMechList env1 tgt0).take (MAX_DRUGS / TARGET_LIMIT),
      processMech env1 tgt0 100 mech = some row0 :=
  ⟨(mech_fetch_cap_amended env1 tgt0).1, by decide,
    (mech_fetch_cap_amended env1 tgt0).2 100 row0 (by decide)⟩

/-- C6 counterexample: on a failing mechanism-list fetch the outer
handler only reports the target-level error (`st.error`), it does not
increment the session `api_errors` counter — refuting the claim's
"increments the session error counter" at this input. -/
theorem mech_failure_counter_cex :
    envFail.mechanisms tgt0.target_chembl_id = .error () ∧
    fetch_drugs_run envFail tgt0 100 =
      { rows := [], targetErrorReported := true, apiErrorIncrement := 0 } ∧
    ¬ (1 ≤ (fetch_drugs_run envFail tgt0 100).apiErrorIncrement) := by
  refine ⟨rfl, rfl, ?_⟩
  decide

/-- C6 amended: a failing mechanism-list fetch aborts that target's
aggregation, returning the rows accumulated so far (none, since the fetch
is the aggregation's first step), and reports the failure per-target —
but it leaves the session error counter unchanged (increment 0). -/
theorem mech_failure_aborts_amended {env : RemoteEnv} {t : Target} {th : ℚ}
    (hfail : env.mechanisms t.target_chembl_id = .error ()) :
    fetch_drugs_run env t th =
      { rows := [], targetErrorReported := true, apiErrorIncrement := 0 } := by
  unfold fetch_drugs_run
  rw [hfail]

/-- C6 witness. -/
theorem mech_failure_aborts_witness :
    envFail.mechanisms tgt0.target_chembl_id = .error () ∧
    fetch_drugs_run envFail tgt0 100 =
      { rows := [], targetErrorReported := true, apiErrorIncrement := 0 } :=
  ⟨rfl, mech_failure_aborts_amended rfl⟩

/-- C7 counterexample: the success-path replace (src/app.py lines
134-139) writes only drugs, gene, threshold and timestamp; the state
stored by a completed run has no `api_errors` field, refuting "the
RunResult written by replace includes the error_count metadata field". -/
theorem replace_error_count_cex :
    (analyze env1 id "PTGS2" 100 7 initResults).2 = RunOutcome.completed ∧
    (analyze env1 id "PTGS2" 100 7 initResults).1.api_errors = none := by
  decide

/-- C7 amended: the state replaced after a completed run carries the
run's rows, gene, threshold and timestamp, but the error-count field is
omitted (absent key; subsequent reads fall back to 0). -/
theorem replace_fields_amended {env : RemoteEnv}
    {π : List Target → List Target} {gene : String} {th now : ℚ}
    {st st' : SessionResults}
    (h : analyze env π gene th now st = (st', .completed)) :
    st'.gene = gene ∧ st'.threshold = th ∧ st'.last_updated = now ∧
      st'.api_errors = none ∧ st'.api_errors.getD 0 = 0 := by
  simp only [analyze] at h
  split at h
  · exact absurd (congrArg Prod.snd h) (by simp)
  · split at h
    · exact absurd (congrArg Prod.snd h) (by simp)
    · injection h with h1 h2
      subst h1
      exact ⟨rfl, rfl, rfl, rfl, rfl⟩

/-- C7 witness. -/
theorem replace_fields_amended_witness :
    analyze env1 id "PTGS2" 100 7 initResults = (stored1, .completed) ∧
    (stored1.gene = "PTGS2" ∧ stored1.threshold = 100 ∧
      stored1.last_updated = 7 ∧ stored1.api_errors = none ∧
      stored1.api_errors.getD 0 = 0) :=
  ⟨by decide,
    @replace_fields_amended env1 id "PTGS2" 100 7 initResults stored1
      (by decide)⟩

/-- C8: when the molecule record has no preferred name, the emitted row's
drug name is the literal "Unknown_" followed by the first 4 characters of
the mechanism's molecule id. -/
theorem fallback_name_unknown {env : RemoteEnv} {t : Target} {th : ℚ}
    {mech : Mechanism} {mol : Molecule} {row : ResultRow}
    (hmol : env.molecule mech.molecule_chembl_id = .ok mol)
    (hname : mol.pref_name = none)
    (h : processMech env t th mech = some row) :
    row.drug = "Unknown_" ++ mech.molecule_chembl_id.take 4 := by
  unfold processMech at h
  repeat' split at h
  all_goals simp_all
  all_goals subst h
  all_goals rfl

/-- C8 witness: for molecule id "CHEMBL1234" the fallback display name is
"Unknown_CHEM". -/
theorem fallback_name_unknown_witness :
    env1.molecule mech0.molecule_chembl_id = .ok mol0 ∧
    mol0.pref_name = none ∧
    processMech env1 tgt0 100 mech0 = some row0 ∧
    row0.drug = "Unknown_" ++ mech0.molecule_chembl_id.take 4 ∧
    row0.drug = "Unknown_CHEM" :=
  ⟨rfl, rfl, by decide,
    @fallback_name_unknown env1 tgt0 100 mech0 mol0 row0 rfl rfl (by decide),
    rfl⟩

/-- C9: when the stored run's timestamp is more than 300 time units older
than now, the status check clears the target-resolution cache and leaves
the stored results record untouched. -/
theorem stale_check_clears_cache {now : ℚ} {s : AppState}
    (h : s.results.last_updated < now - 300) :
    (cacheManagement now s).targetCache = [] ∧
    (cacheManagement now s).results = s.results := by
  unfold cacheManagement
  rw [if_pos h]
  exact ⟨rfl, rfl⟩

/-- C9 witness. -/
theorem stale_check_clears_cache_witness :
    appState9.results.last_updated < 1000 - 300 ∧
    (cacheManagement 1000 appState9).targetCache = [] ∧
    (cacheManagement 1000 appState9).results = appState9.results :=
  ⟨by norm_num [appState9, stored1],
    @stale_check_clears_cache 1000 appState9 (by norm_num [appState9, stored1])⟩

/-- C10: a run that terminates NoTargets or NoResults stops before the
replace, so the stored rows, gene, threshold and timestamp are all left
as the prior run wrote them (only the standing error counter is
reset/updated by the failed run). -/
theorem failed_run_preserves_store {env : RemoteEnv}
    {π : List Target → List Target} {gene : String} {th now : ℚ}
    {st st' : SessionResults} {o : RunOutcome}
    (h : analyze env π gene th now st = (st', o))
    (ho : o = .noTargets ∨ o = .noResults) :
    st'.drugs = st.drugs ∧ st'.gene = st.gene ∧
      st'.threshold = st.threshold ∧ st'.last_updated = st.last_updated := by
  simp only [analyze] at h
  split at h
  · injection h with h1 h2
    subst h1
    exact ⟨rfl, rfl, rfl, rfl⟩
  · split at h
    · injection h with h1 h2
      subst h1
      exact ⟨rfl, rfl, rfl, rfl⟩
    · injection h with h1 h2
      subst h2
      rcases ho with ho | ho <;> simp at ho

/-- C10 witness. -/
theorem failed_run_preserves_store_witness :
    analyze envEmpty id "PTGS2" 100 7 initResults =
      (initResults, .noTargets) ∧
    (initResults.drugs = initResults.drugs ∧
      initResults.gene = initResults.gene ∧
      initResults.threshold = initResults.threshold ∧
      initResults.last_updated = initResults.last_updated) :=
  ⟨by decide,
    @failed_run_preserves_store envEmpty id "PTGS2" 100 7 initResults
      initResults .noTargets (by decide) (Or.inl rfl)⟩

end App
